import Mathlib

/-!
# DocuMind streaming chat client: shallow embedding and verification

This file embeds the streaming-response protocol client, the conversation
state handling and the media timestamp index of the DocuMind frontend
(TypeScript sources under `src/frontend/src` and the unnamed source parts)
into Lean, and proves or refutes the specification claims about them.

Conventions of the embedding:
 - JavaScript numbers are modelled as rationals (`ℚ`); every numeric value
   appearing in the claims is exactly representable, and only order
   comparisons and `+ 1` are performed on them, on which `ℚ` agrees with
   IEEE doubles for these magnitudes.
 - JavaScript strings are modelled as `String` / `List Char`.  All string
   positions touched by the code (the `data: ` marker, `slice(6)`) are
   ASCII, where UTF-16 units, code points and bytes coincide.
 - `JSON.parse` (an ECMAScript builtin, no repository source) is modelled
   by `jsonParse` below, a recursive-descent parser of the JSON grammar;
   a failed parse is `none`, mirroring the thrown `SyntaxError` being
   caught by the surrounding `catch`.
 - Asynchronous calls are modelled by passing their outcome as an explicit
   argument (`Except` for fallible calls); `useState` state is explicit
   record state.
-/

namespace DocuMind

/-! ## JSON values and `JSON.parse`

`Json` is the result type of `JSON.parse`.  Objects keep their members in
source order; `getField` returns the last binding of a key, matching the
assignment order of `JSON.parse` on duplicate keys. -/

inductive Json where
  | null
  | bool (b : Bool)
  | num (q : ℚ)
  | str (s : String)
  | arr (elems : List Json)
  | obj (fields : List (String × Json))

/-- Property access `value[key]` on a parsed JSON value: `none` models the
JavaScript `undefined`.  Non-objects have no own properties of interest. -/
def Json.getField : Json → String → Option Json
  | .obj fields, k => fields.foldl (fun acc p => if p.1 = k then some p.2 else acc) none
  | _, _ => none

/-- JSON insignificant whitespace. -/
def isJsonWs (c : Char) : Bool := c = ' ' || c = '\t' || c = '\n' || c = '\r'

def skipWs (cs : List Char) : List Char := cs.dropWhile isJsonWs

def hexVal (c : Char) : Option Nat :=
  if '0' ≤ c ∧ c ≤ '9' then some (c.toNat - '0'.toNat)
  else if 'a' ≤ c ∧ c ≤ 'f' then some (c.toNat - 'a'.toNat + 10)
  else if 'A' ≤ c ∧ c ≤ 'F' then some (c.toNat - 'A'.toNat + 10)
  else none

/-- Body of a JSON string literal after the opening quote: returns the
decoded characters and the input after the closing quote.  Escape
sequences follow the JSON grammar; unescaped control characters are
rejected, as by `JSON.parse`. -/
def parseStringBody : Nat → List Char → Option (List Char × List Char)
  | 0, _ => none
  | _ + 1, [] => none
  | fuel + 1, c :: cs =>
    if c = '"' then some ([], cs)
    else if c = '\\' then
      match cs with
      | [] => none
      | e :: cs2 =>
        let cont := fun (ch : Char) (rest : List Char) =>
          match parseStringBody fuel rest with
          | some (acc, rem) => some (ch :: acc, rem)
          | none => none
        if e = '"' then cont '"' cs2
        else if e = '\\' then cont '\\' cs2
        else if e = '/' then cont '/' cs2
        else if e = 'b' then cont (Char.ofNat 8) cs2
        else if e = 'f' then cont (Char.ofNat 12) cs2
        else if e = 'n' then cont '\n' cs2
        else if e = 'r' then cont '\r' cs2
        else if e = 't' then cont '\t' cs2
        else if e = 'u' then
          match cs2 with
          | h1 :: h2 :: h3 :: h4 :: cs3 =>
            match hexVal h1, hexVal h2, hexVal h3, hexVal h4 with
            | some a, some b, some c3, some d => cont (Char.ofNat (((a * 16 + b) * 16 + c3) * 16 + d)) cs3
            | _, _, _, _ => none
          | _ => none
        else none
    else if c.toNat < 32 then none
    else
      match parseStringBody fuel cs with
      | some (acc, rem) => some (c :: acc, rem)
      | none => none

def digitsToNat (ds : List Char) : Nat := ds.foldl (fun a c => a * 10 + (c.toNat - 48)) 0

/-- Optional fraction part of a JSON number (`.digits`). -/
def parseFrac : List Char → Option (ℚ × List Char)
  | '.' :: r =>
    let fds := r.takeWhile Char.isDigit
    if fds = [] then none
    else some ((digitsToNat fds : ℚ) / (10 : ℚ) ^ fds.length, r.dropWhile Char.isDigit)
  | cs => some (0, cs)

/-- Optional exponent part of a JSON number, returned as a power-of-ten factor. -/
def parseExp : List Char → Option (ℚ × List Char)
  | c :: r =>
    if c = 'e' ∨ c = 'E' then
      let signNeg : Bool × List Char :=
        match r with
        | '+' :: rr => (false, rr)
        | '-' :: rr => (true, rr)
        | _ => (false, r)
      let eds := signNeg.2.takeWhile Char.isDigit
      if eds = [] then none
      else
        some ((10 : ℚ) ^ (if signNeg.1 then -(digitsToNat eds : ℤ) else (digitsToNat eds : ℤ)),
              signNeg.2.dropWhile Char.isDigit)
    else some (1, c :: r)
  | [] => some (1, [])

/-- JSON number: `-? int frac? exp?` with the leading-zero restriction of
the JSON grammar (after a leading `0` no further integer digits). -/
def parseNumber (cs : List Char) : Option (ℚ × List Char) :=
  let signed : Bool × List Char :=
    match cs with
    | '-' :: rest => (true, rest)
    | _ => (false, cs)
  let sign : ℚ := if signed.1 then -1 else 1
  match signed.2 with
  | '0' :: rest =>
    (parseFrac rest).bind fun p =>
      (parseExp p.2).bind fun q => some (sign * p.1 * q.1, q.2)
  | c :: _ =>
    if c.isDigit then
      let ids := signed.2.takeWhile Char.isDigit
      let rest := signed.2.dropWhile Char.isDigit
      (parseFrac rest).bind fun p =>
        (parseExp p.2).bind fun q =>
          some (sign * ((digitsToNat ids : ℚ) + p.1) * q.1, q.2)
    else none
  | [] => none

mutual

/-- One JSON value, leading whitespace allowed. -/
def parseValue : Nat → List Char → Option (Json × List Char)
  | 0, _ => none
  | fuel + 1, cs =>
    match skipWs cs with
    | [] => none
    | '{' :: rest => parseObjRest fuel rest
    | '[' :: rest => parseArrRest fuel rest
    | '"' :: rest =>
      match parseStringBody (rest.length + 1) rest with
      | some p => some (.str (String.mk p.1), p.2)
      | none => none
    | 't' :: 'r' :: 'u' :: 'e' :: rest => some (.bool true, rest)
    | 'f' :: 'a' :: 'l' :: 's' :: 'e' :: rest => some (.bool false, rest)
    | 'n' :: 'u' :: 'l' :: 'l' :: rest => some (.null, rest)
    | cs2 =>
      match parseNumber cs2 with
      | some p => some (.num p.1, p.2)
      | none => none

/-- Object members after the opening brace. -/
def parseObjRest : Nat → List Char → Option (Json × List Char)
  | 0, _ => none
  | fuel + 1, cs =>
    match skipWs cs with
    | '}' :: rest => some (.obj [], rest)
    | _ => parseMembers fuel cs

def parseMembers : Nat → List Char → Option (Json × List Char)
  | 0, _ => none
  | fuel + 1, cs =>
    match skipWs cs with
    | '"' :: rest =>
      match parseStringBody (rest.length + 1) rest with
      | none => none
      | some (key, rest2) =>
        match skipWs rest2 with
        | ':' :: rest3 =>
          match parseValue fuel rest3 with
          | none => none
          | some (v, rest4) =>
            match skipWs rest4 with
            | ',' :: rest5 =>
              match parseMembers fuel rest5 with
              | some (.obj fields, rest6) => some (.obj ((String.mk key, v) :: fields), rest6)
              | _ => none
            | '}' :: rest5 => some (.obj [(String.mk key, v)], rest5)
            | _ => none
        | _ => none
    | _ => none

/-- Array elements after the opening bracket. -/
def parseArrRest : Nat → List Char → Option (Json × List Char)
  | 0, _ => none
  | fuel + 1, cs =>
    match skipWs cs with
    | ']' :: rest => some (.arr [], rest)
    | _ => parseElems fuel cs

def parseElems : Nat → List Char → Option (Json × List Char)
  | 0, _ => none
  | fuel + 1, cs =>
    match parseValue fuel cs with
    | none => none
    | some (v, rest) =>
      match skipWs rest with
      | ',' :: rest2 =>
        match parseElems fuel rest2 with
        | some (.arr elems, rest3) => some (.arr (v :: elems), rest3)
        | _ => none
      | ']' :: rest2 => some (.arr [v], rest2)
      | _ => none

end

/-- Model of `JSON.parse(s)`: a full parse of the input, `none` for a
thrown `SyntaxError`. -/
def jsonParse (cs : List Char) : Option Json :=
  match parseValue (3 * cs.length + 3) cs with
  | some (j, rest) => if skipWs rest = [] then some j else none
  | none => none

/-! ## Frame decoder (`askQuestionStreaming`, chatService.ts lines 52–98)

The streaming loop keeps a text buffer, appends each decoded chunk, splits
on newline, processes every fragment but the last and re-buffers the last
(`buffer = lines.pop() || ''`).  `TextDecoder` is modelled by delivering
chunks as already-decoded character lists. -/

/-- `String.prototype.split('\n')`: list of newline-separated fragments;
always non-empty, `[[]]` on empty input, exactly as in JavaScript. -/
def splitNL : List Char → List (List Char)
  | [] => [[]]
  | c :: cs =>
    let parts := splitNL cs
    if c = '\n' then [] :: parts
    else (c :: parts.headD []) :: parts.tail

/-- One iteration of the read loop: append the chunk to the buffer, split,
emit all complete lines, keep the trailing fragment as the new buffer. -/
def feedChunk (buffer chunk : List Char) : List (List Char) × List Char :=
  let parts := splitNL (buffer ++ chunk)
  (parts.dropLast, parts.getLastD [])

/-! ## Event dispatcher (chatService.ts lines 71–96)

The observable effects of the per-line dispatch are the `onChunk` calls,
the `onComplete` calls and the captured `suggestedTimestamp` variable. -/

structure StreamState where
  chunkCalls : List String
  completeCalls : List (Option Json)
  suggestedTimestamp : Option Json

def initStreamState : StreamState := ⟨[], [], none⟩

/-- The recognized line marker `'data: '`. -/
def dataMarker : List Char := ['d', 'a', 't', 'a', ':', ' ']

/-- JavaScript `String.prototype.trim` whitespace (ASCII part; only
emptiness of the result is ever used). -/
def isTrimWs (c : Char) : Bool :=
  c = ' ' || c = '\t' || c = '\n' || c = '\r' || c = '\x0b' || c = '\x0c'

def trimChars (cs : List Char) : List Char :=
  ((cs.dropWhile isTrimWs).reverse.dropWhile isTrimWs).reverse

/-- `data.type === tag` for a string literal `tag`: strict equality holds
exactly when the `type` property is that string. -/
def isTypeTag (data : Json) (tag : String) : Bool :=
  match data.getField "type" with
  | some (.str t) => t = tag
  | _ => false

/-- JavaScript string coercion, used when a frame's `content` or `error`
value reaches string context.  Protocol frames carry strings here, so only
the `.str` case (and `"undefined"` for an absent property) is exercised by
any claim; the remaining cases are schematic. -/
def jsToString : Json → String
  | .null => "null"
  | .bool true => "true"
  | .bool false => "false"
  | .num q => toString q
  | .str s => s
  | .arr _ => ""
  | .obj _ => "[object Object]"

/-- JavaScript falsiness of a parsed JSON value, for `data.error || '…'`. -/
def jsFalsy : Json → Bool
  | .null => true
  | .bool b => !b
  | .num q => q = 0
  | .str s => s = ""
  | _ => false

/-- The text appended by `onChunk(data.content)` (an absent property is
`undefined` and coerces to `"undefined"` on `+=`). -/
def contentText (data : Json) : String :=
  match data.getField "content" with
  | some v => jsToString v
  | none => "undefined"

/-- `data.error || 'Streaming error occurred'`. -/
def streamErrorMessage (data : Json) : String :=
  match data.getField "error" with
  | some v => if jsFalsy v then "Streaming error occurred" else jsToString v
  | none => "Streaming error occurred"

/-- The body of the `try` block for one parsed payload (chatService.ts
lines 79–91): `content` invokes `onChunk`; `error` throws (`.error`);
`done` captures `suggested_timestamp` when the property is present and
invokes `onComplete` with the captured value; any other `type` falls
through with no effect. -/
def dispatchPayload (st : StreamState) (data : Json) : Except String StreamState :=
  if isTypeTag data "content" then
    .ok { st with chunkCalls := st.chunkCalls ++ [contentText data] }
  else if isTypeTag data "error" then
    .error (streamErrorMessage data)
  else if isTypeTag data "done" then
    let st1 :=
      match data.getField "suggested_timestamp" with
      | some v => { st with suggestedTimestamp := some v }
      | none => st
    .ok { st1 with completeCalls := st1.completeCalls ++ [st1.suggestedTimestamp] }
  else
    .ok st

/-- Processing of one complete line (chatService.ts lines 71–96).  The
`catch (parseError)` surrounds the whole `try`, so both a `JSON.parse`
failure and the `throw` raised for an `error` frame are caught there,
logged, and leave the loop state unchanged. -/
def processLine (st : StreamState) (line : List Char) : StreamState :=
  if line.take 6 = dataMarker then
    let jsonStr := line.drop 6
    if trimChars jsonStr ≠ [] then
      match jsonParse jsonStr with
      | none => st
      | some data =>
        match dispatchPayload st data with
        | .ok st2 => st2
        | .error _ => st
    else st
  else st

/-- The whole read loop: for each chunk, emit complete lines and process
them in order; the final unterminated buffer is never processed. -/
def runChunks : StreamState → List Char → List (List Char) → StreamState × List Char
  | st, buffer, [] => (st, buffer)
  | st, buffer, ch :: rest =>
    let fed := feedChunk buffer ch
    runChunks (fed.1.foldl processLine st) fed.2 rest

/-- Observable result of `askQuestionStreaming` on a successfully opened
stream delivering `chunks`. -/
def runStream (chunks : List (List Char)) : StreamState :=
  (runChunks initStreamState [] chunks).1

/-- The complete lines emitted over a whole stream, with the final buffer:
the interleaving-free view of the frame decoder. -/
def streamLines : List Char → List (List Char) → List (List Char) × List Char
  | buffer, [] => ([], buffer)
  | buffer, ch :: rest =>
    let fed := feedChunk buffer ch
    let next := streamLines fed.2 rest
    (fed.1 ++ next.1, next.2)

/-! ## Semantic stream events (spec §3, `StreamEvent`)

The classification of a decoded line into a semantic event, and the effect
of one event on the dispatch state.  `processLine` is proved equal to
classify-then-apply below, tying the two views together. -/

inductive StreamEvent where
  | contentDelta (text : String)
  | done (suggested : Option Json)
  | errorEvent (message : String)

/-- Event denoted by one parsed payload; `none` for an unrecognized
discriminator. -/
def payloadEvent (data : Json) : Option StreamEvent :=
  if isTypeTag data "content" then some (.contentDelta (contentText data))
  else if isTypeTag data "error" then some (.errorEvent (streamErrorMessage data))
  else if isTypeTag data "done" then some (.done (data.getField "suggested_timestamp"))
  else none

/-- Event denoted by one complete line; `none` for non-data lines, blank
payloads and malformed JSON. -/
def lineEvent (line : List Char) : Option StreamEvent :=
  if line.take 6 = dataMarker then
    if trimChars (line.drop 6) ≠ [] then
      match jsonParse (line.drop 6) with
      | none => none
      | some data => payloadEvent data
    else none
  else none

/-- Effect of one semantic event on the dispatch state.  An `errorEvent`
leaves the state unchanged because the `throw` is caught by the same
`catch (parseError)` that guards `JSON.parse`. -/
def applyEvent (st : StreamState) : StreamEvent → StreamState
  | .contentDelta text => { st with chunkCalls := st.chunkCalls ++ [text] }
  | .errorEvent _ => st
  | .done v =>
    let st1 :=
      match v with
      | some j => { st with suggestedTimestamp := some j }
      | none => st
    { st1 with completeCalls := st1.completeCalls ++ [st1.suggestedTimestamp] }

def applyEvents (st : StreamState) (evs : List StreamEvent) : StreamState :=
  evs.foldl applyEvent st

/-! ## Conversation data model (chat.types.ts) -/

inductive MessageRole where
  | user
  | assistant
deriving DecidableEq

structure MessageMetadata where
  source_chunks : Option (List String)
  model : Option String
  confidence : Option ℚ

/-- `Message` of chat.types.ts.  `suggested_timestamp` holds whatever value
the dispatcher captured (a number in every protocol-conforming run); the
field is `Option Json` because the capture test is `!== undefined`. -/
structure Message where
  message_id : String
  role : MessageRole
  content : String
  timestamp : String
  token_count : Option ℚ
  metadata : Option MessageMetadata
  suggested_timestamp : Option Json

structure ChatHistoryResponse where
  chat_id : String
  file_id : String
  messages : List Message
  total_messages : ℚ
  total_tokens : ℚ
  created_at : String
  updated_at : String

/-! ## Conversation state (`useChat`, streaming version)

The hook state is the record below; `askQuestion` is modelled as a pure
function of the initial state, the transport outcome and the history-fetch
outcome.  Client-generated values (`temp-${Date.now()}` id, `new Date()`
timestamps) are passed in as parameters. -/

structure ChatState where
  isLoading : Bool
  chatHistory : Option ChatHistoryResponse
  error : Option String
  streamingMessage : String
  lastSuggestedTimestamp : Option Json

/-- Outcome of the transport layer for one `askQuestionStreaming` call:
the fetch itself may reject, the response may be non-2xx (the function
throws `HTTP error! status: …` before reading), or the body streams a
sequence of decoded text chunks to completion. -/
inductive TransportResult where
  | networkError (message : String)
  | httpError (status : Nat)
  | stream (chunks : List (List Char))

/-- `chatService.askQuestionStreaming`: throws (`.error`) before any frame
on transport failure, otherwise runs the read loop over the chunks.  The
returned `StreamState` carries the `onChunk`/`onComplete` call sequences
and the captured `suggested_timestamp` that the function returns. -/
def askQuestionStreamingModel : TransportResult → Except String StreamState
  | .networkError m => .error m
  | .httpError status => .error ("HTTP error! status: " ++ toString status)
  | .stream chunks => .ok (runStream chunks)

/-- The synchronous prefix of `askQuestion` (useChat lines 16–40): set the
loading flag, clear error, live buffer and captured suggestion, and append
the optimistic user message to the local history (spreading `prev` with
every field overridden, falling back to defaults when there was no
history). -/
def submitStage (pre : ChatState) (question fileId tempId tempTs nowTs : String) : ChatState :=
  let tempUserMessage : Message :=
    { message_id := tempId, role := .user, content := question, timestamp := tempTs
      token_count := some 0, metadata := none, suggested_timestamp := none }
  let prev := pre.chatHistory
  let optimistic : ChatHistoryResponse :=
    { chat_id := (prev.map (·.chat_id)).getD ""
      file_id := fileId
      messages := ((prev.map (·.messages)).getD []) ++ [tempUserMessage]
      total_messages := ((prev.map (·.total_messages)).getD 0) + 1
      total_tokens := (prev.map (·.total_tokens)).getD 0
      created_at := (prev.map (·.created_at)).getD nowTs
      updated_at := nowTs }
  { pre with
    isLoading := true
    error := none
    streamingMessage := ""
    lastSuggestedTimestamp := none
    chatHistory := some optimistic }

/-- The local `suggestedTs` variable after the streaming call returns:
each `onComplete(t)` assignment in arrival order, then the returned
`result.suggested_timestamp` when it is defined (useChat lines 56–66). -/
def finalSuggested (run : StreamState) : Option Json :=
  let viaCallbacks := (run.completeCalls.getLast?).getD none
  match run.suggestedTimestamp with
  | some v => some v
  | none => viaCallbacks

/-- State once the streaming loop has completed, before the authoritative
history fetch is issued: `fullAnswer` has accumulated every `onChunk`
argument in order and is surfaced as the live buffer. -/
def afterStreamingStage (s : ChatState) (run : StreamState) : ChatState :=
  { s with
    streamingMessage := String.join run.chunkCalls
    lastSuggestedTimestamp := finalSuggested run }

/-- Post-fetch attachment (useChat lines 72–78): when a suggestion was
captured and the canonical sequence is non-empty and ends in an assistant
message, mutate that last message's `suggested_timestamp`. -/
def attachSuggested (history : ChatHistoryResponse) (suggestedTs : Option Json) :
    ChatHistoryResponse :=
  match suggestedTs with
  | none => history
  | some v =>
    match history.messages.getLast? with
    | none => history
    | some lastMessage =>
      if lastMessage.role = .assistant then
        { history with
          messages := history.messages.dropLast ++
            [{ lastMessage with suggested_timestamp := some v }] }
      else history

/-- Reconciliation (useChat lines 70–81): on success replace the local
history with the (possibly mutated) canonical sequence and clear the live
buffer; a rejection falls to the surrounding `catch` which surfaces the
message and clears the live buffer. -/
def reconcileStage (s : ChatState) (suggestedTs : Option Json)
    (historyResult : Except String ChatHistoryResponse) : ChatState :=
  match historyResult with
  | .ok history =>
    { s with
      chatHistory := some (attachSuggested history suggestedTs)
      streamingMessage := ""
      isLoading := false }
  | .error m =>
    { s with error := some m, streamingMessage := "", isLoading := false }

/-- `useChat.askQuestion` (useChat lines 15–92), as a pure function of the
outcomes of its two awaited calls.  A transport failure reaches the
`catch`/`finally` without any history fetch; otherwise the history fetch
runs and `reconcileStage` finishes the turn. -/
def askQuestion (pre : ChatState) (question fileId tempId tempTs nowTs : String)
    (transport : TransportResult)
    (historyResult : Except String ChatHistoryResponse) : ChatState :=
  let s1 := submitStage pre question fileId tempId tempTs nowTs
  match askQuestionStreamingModel transport with
  | .error m =>
    { s1 with error := some m, streamingMessage := "", isLoading := false }
  | .ok run =>
    reconcileStage (afterStreamingStage s1 run) (finalSuggested run) historyResult

/-! ## Submission gate (`ChatInterface.handleSubmit`, lines 31–38)

`handleSubmit` returns before doing anything when the input is blank or a
question is already in flight; otherwise it clears the input box and
invokes `askQuestion`. -/

/-- Outcome of one form submission: the input-box content afterwards, the
conversation state afterwards, and whether a network request was issued. -/
structure SubmitOutcome where
  questionBox : String
  conv : ChatState
  requestIssued : Bool

def handleSubmit (questionBox : String) (st : ChatState)
    (fileId tempId tempTs nowTs : String) (transport : TransportResult)
    (historyResult : Except String ChatHistoryResponse) : SubmitOutcome :=
  if questionBox.trim = "" ∨ st.isLoading then
    { questionBox := questionBox, conv := st, requestIssued := false }
  else
    { questionBox := ""
      conv := askQuestion st questionBox fileId tempId tempTs nowTs transport historyResult
      requestIssued := true }

/-! ## Media player context (MediaPlayerContext, part_005 lines 20–57)

A single mutable reference to the bound playback element, shared through
context.  `registerMediaElement` assigns the reference (possibly `null`);
`seekToTime` is guarded by the reference being non-null. -/

structure MediaElement where
  currentTime : ℚ
  paused : Bool
deriving DecidableEq

structure MediaPlayerCtx where
  mediaRef : Option MediaElement
  currentTime : ℚ
  duration : ℚ
  isPlaying : Bool
deriving DecidableEq

def initMediaPlayerCtx : MediaPlayerCtx :=
  { mediaRef := none, currentTime := 0, duration := 0, isPlaying := false }

def registerMediaElement (ctx : MediaPlayerCtx) (element : Option MediaElement) :
    MediaPlayerCtx :=
  { ctx with mediaRef := element }

/-- `seekToTime(seconds)` (part_005 lines 30–38): with no bound element the
guard fails and nothing happens; otherwise assign `currentTime`, call
`play()` and set the playing flag. -/
def seekToTime (ctx : MediaPlayerCtx) (seconds : ℚ) : MediaPlayerCtx :=
  match ctx.mediaRef with
  | none => ctx
  | some el =>
    { ctx with
      mediaRef := some { el with currentTime := seconds, paused := false }
      isPlaying := true }

/-! ## Media timestamp index (MediaPlayer component, part_006 lines 42–48) -/

structure TimestampEntry where
  timestamp_entry_id : String
  time : ℚ
  topic : String
  description : String
  keywords : List String
  confidence : Option ℚ
deriving DecidableEq

/-- The `findIndex` scan of part_006 lines 43–46: the callback at index
`idx` tests `currentTime >= ts.time && (!nextTs || currentTime < nextTs.time)`
where `nextTs = timestamps[idx + 1]`. -/
def activeScan : List TimestampEntry → ℚ → Nat → Int
  | [], _, _ => -1
  | [ts], t, idx => if ts.time ≤ t then (idx : Int) else -1
  | ts :: nextTs :: rest, t, idx =>
    if ts.time ≤ t ∧ t < nextTs.time then (idx : Int)
    else activeScan (nextTs :: rest) t (idx + 1)

/-- `activeIndex` computed on every `currentTime` update (part_006 lines
42–48). -/
def activeTimestampIndex (timestamps : List TimestampEntry) (t : ℚ) : Int :=
  activeScan timestamps t 0

/-- Modelled from the spec (§4.6): the index of the last entry with
`time ≤ t`, or −1 when no entry qualifies — a left fold recording the most
recent qualifying index. -/
def lastIndexWithTimeLE (timestamps : List TimestampEntry) (t : ℚ) : Int :=
  (timestamps.foldl
    (fun (acc : Int × Nat) e => (if e.time ≤ t then (acc.2 : Int) else acc.1, acc.2 + 1))
    (-1, 0)).1

/-- The spec's worked example sequence: entries at times 0, 120 and 300. -/
def specExampleEntries : List TimestampEntry :=
  [⟨"e1", 0, "", "", [], none⟩, ⟨"e2", 120, "", "", [], none⟩, ⟨"e3", 300, "", "", [], none⟩]

/-- `lastIndexWithTimeLE`'s fold from an arbitrary index and accumulator. -/
def lastIdxFoldFrom (l : List TimestampEntry) (t : ℚ) (i : Nat) (acc : Int) : Int :=
  (l.foldl (fun (a : Int × Nat) e => (if e.time ≤ t then (a.2 : Int) else a.1, a.2 + 1))
    (acc, i)).1

/-- Gluing two split results: all fragments of the first except its last,
then the last fragment of the first joined to the first fragment of the
second, then the rest of the second. -/
def glue : List (List Char) → List (List Char) → List (List Char)
  | [], ys => ys
  | x :: xs, ys =>
    match xs with
    | [] => (x ++ ys.headD []) :: ys.tail
    | x2 :: xs2 => x :: glue (x2 :: xs2) ys

/-- Concrete streaming state for witnesses: the spec's end-to-end example
deltas followed by `done` with `suggested_timestamp = 42`, split into two
reads. -/
def exampleChunks : List (List Char) :=
  [("data: \x7b\"type\":\"content\",\"content\":\"The \"\x7d\n" ++
    "data: \x7b\"type\":\"content\",\"content\":\"topic \"\x7d\n").toList,
   ("data: \x7b\"type\":\"content\",\"content\":\"is X.\"\x7d\n" ++
    "data: \x7b\"type\":\"done\",\"suggested_timestamp\":42\x7d\n").toList]

/-- A message with its per-turn suggestion hint removed, for stating that
reconciliation keeps everything else of the canonical sequence. -/
def eraseSuggested (m : Message) : Message := { m with suggested_timestamp := none }

/-- Concrete two-message canonical history for witnesses. -/
def wUser : Message := ⟨"m1", .user, "What is the topic?", "t1", some 5, none, none⟩

def wAsst : Message := ⟨"m2", .assistant, "The topic is X.", "t2", some 7, none, none⟩

def wHistory : ChatHistoryResponse := ⟨"c1", "f1", [wUser, wAsst], 2, 12, "t0", "t2"⟩

/-- A stream that delivers a partial answer and then completes. -/
def partialChunks : List (List Char) :=
  [("data: \x7b\"type\":\"content\",\"content\":\"Partial answer\"\x7d\n" ++
    "data: \x7b\"type\":\"done\"\x7d\n").toList]

/-- The spec's error-scenario stream, with one further content frame. -/
def errorFrameChunks : List (List Char) :=
  [("data: \x7b\"type\":\"content\",\"content\":\"Partial\"\x7d\n").toList,
   ("data: \x7b\"type\":\"error\",\"error\":\"rate limited\"\x7d\n").toList,
   ("data: \x7b\"type\":\"content\",\"content\":\"More\"\x7d\n").toList]

def errorFramePayload : Json :=
  Json.obj [("type", .str "error"), ("error", .str "rate limited")]

/-! ## Theorems -/

theorem lastIdxFoldFrom_cons (e : TimestampEntry) (l : List TimestampEntry) (t : ℚ)
    (i : Nat) (acc : Int) :
    lastIdxFoldFrom (e :: l) t i acc =
      lastIdxFoldFrom l t (i + 1) (if e.time ≤ t then (i : Int) else acc) := rfl

theorem lastIdxFoldFrom_all_gt (t : ℚ) :
    ∀ (l : List TimestampEntry), (∀ e ∈ l, ¬ e.time ≤ t) →
      ∀ (i : Nat) (acc : Int), lastIdxFoldFrom l t i acc = acc := by
  intro l
  induction l with
  | nil => intro _ i acc; rfl
  | cons e rest ih =>
    intro h i acc
    rw [lastIdxFoldFrom_cons, if_neg (h e (by simp))]
    exact ih (fun x hx => h x (by simp [hx])) _ _

theorem activeScan_all_gt (t : ℚ) :
    ∀ (l : List TimestampEntry), (∀ e ∈ l, ¬ e.time ≤ t) →
      ∀ (i : Nat), activeScan l t i = -1 := by
  intro l
  induction l with
  | nil => intro _ i; rfl
  | cons e rest ih =>
    intro h i
    cases rest with
    | nil => simp [activeScan, h e (by simp)]
    | cons e2 r2 =>
      have hcond : ¬ (e.time ≤ t ∧ t < e2.time) := fun hc => h e (by simp) hc.1
      simp only [activeScan, if_neg hcond]
      exact ih (fun x hx => h x (by simp [hx])) (i + 1)

theorem activeScan_eq_fold (t : ℚ) :
    ∀ (l : List TimestampEntry), l.Pairwise (fun a b => a.time ≤ b.time) →
      ∀ (i : Nat), activeScan l t i = lastIdxFoldFrom l t i (-1) := by
  intro l
  induction l with
  | nil => intro _ i; rfl
  | cons e rest ih =>
    intro hp i
    have hhead : ∀ x ∈ rest, e.time ≤ x.time := (List.pairwise_cons.mp hp).1
    have hrest := (List.pairwise_cons.mp hp).2
    cases rest with
    | nil =>
      by_cases h : e.time ≤ t
      · rw [lastIdxFoldFrom_cons, if_pos h]
        simp [activeScan, h, lastIdxFoldFrom]
      · rw [lastIdxFoldFrom_cons, if_neg h]
        simp [activeScan, h, lastIdxFoldFrom]
    | cons e2 r2 =>
      have hhead2 : ∀ x ∈ r2, e2.time ≤ x.time := (List.pairwise_cons.mp hrest).1
      by_cases h1 : e.time ≤ t ∧ t < e2.time
      · have hgt : ∀ x ∈ (e2 :: r2), ¬ x.time ≤ t := by
          intro x hx
          rcases List.mem_cons.mp hx with h | hx2
          · subst h; exact fun hc => absurd h1.2 (not_lt.mpr hc)
          · exact fun hc => absurd (lt_of_lt_of_le h1.2 (hhead2 x hx2)) (not_lt.mpr hc)
        rw [lastIdxFoldFrom_cons, if_pos h1.1, lastIdxFoldFrom_all_gt t _ hgt]
        simp [activeScan, h1]
      · have hscan : activeScan (e :: e2 :: r2) t i = activeScan (e2 :: r2) t (i + 1) := by
          simp [activeScan, h1]
        by_cases h2 : e2.time ≤ t
        · rw [lastIdxFoldFrom_cons, lastIdxFoldFrom_cons, if_pos h2]
          have hIH := ih hrest (i + 1)
          rw [lastIdxFoldFrom_cons, if_pos h2] at hIH
          rw [hscan]
          exact hIH
        · have he : ¬ e.time ≤ t := by
            intro hc
            by_cases hlt : t < e2.time
            · exact h1 ⟨hc, hlt⟩
            · exact h2 (not_lt.mp hlt)
          rw [lastIdxFoldFrom_cons, if_neg he, hscan]
          exact ih hrest (i + 1)

/-- Claim C6: for an ascending-by-time sequence, the `findIndex` scan
returns the index of the last entry with `time ≤ t` (−1 when `t` precedes
the first entry or the sequence is empty), and on the spec's example
entries at times 0, 120, 300 it returns −1, 0, 0, 1, 2 at
t = −1, 0, 119.9, 120, 305. -/
theorem active_index_is_last_entry_le (timestamps : List TimestampEntry) (t : ℚ)
    (hs : timestamps.Pairwise (fun a b => a.time ≤ b.time)) :
    activeTimestampIndex timestamps t = lastIndexWithTimeLE timestamps t ∧
    (∀ e rest, timestamps = e :: rest → t < e.time → activeTimestampIndex timestamps t = -1) ∧
    activeTimestampIndex ([] : List TimestampEntry) t = -1 ∧
    activeTimestampIndex specExampleEntries (-1) = -1 ∧
    activeTimestampIndex specExampleEntries 0 = 0 ∧
    activeTimestampIndex specExampleEntries (1199 / 10) = 0 ∧
    activeTimestampIndex specExampleEntries 120 = 1 ∧
    activeTimestampIndex specExampleEntries 305 = 2 := by
  refine ⟨activeScan_eq_fold t timestamps hs 0, ?_, rfl, by decide, by decide,
    by norm_num [activeTimestampIndex, activeScan, specExampleEntries], by decide, by decide⟩
  intro e rest heq hlt
  subst heq
  apply activeScan_all_gt
  intro x hx
  rcases List.mem_cons.mp hx with h | hx2
  · subst h; exact not_le.mpr hlt
  · exact fun hc =>
      absurd (lt_of_lt_of_le hlt ((List.pairwise_cons.mp hs).1 x hx2)) (not_lt.mpr hc)

theorem active_index_is_last_entry_le_witness :
    specExampleEntries.Pairwise (fun a b => a.time ≤ b.time) ∧
    activeTimestampIndex specExampleEntries 120 = lastIndexWithTimeLE specExampleEntries 120 :=
  ⟨by decide, (active_index_is_last_entry_le specExampleEntries 120 (by decide)).1⟩

theorem splitNL_ne_nil (cs : List Char) : splitNL cs ≠ [] := by
  cases cs with
  | nil => simp [splitNL]
  | cons c cs => simp only [splitNL]; split <;> simp

theorem headD_cons_tail {α : Type} (l : List α) (d : α) (h : l ≠ []) :
    l.headD d :: l.tail = l := by
  cases l with
  | nil => exact absurd rfl h
  | cons a as => rfl

theorem splitNL_cons_of_ne_nil (cs : List Char) : ∃ p ps, splitNL cs = p :: ps := by
  cases hpc : splitNL cs with
  | nil => exact absurd hpc (splitNL_ne_nil cs)
  | cons p ps => exact ⟨p, ps, rfl⟩

theorem splitNL_append (xs ys : List Char) :
    splitNL (xs ++ ys) = glue (splitNL xs) (splitNL ys) := by
  induction xs with
  | nil =>
    show splitNL ys = glue [[]] (splitNL ys)
    show splitNL ys = ([] ++ (splitNL ys).headD []) :: (splitNL ys).tail
    rw [List.nil_append]
    exact (headD_cons_tail _ _ (splitNL_ne_nil ys)).symm
  | cons c cs ih =>
    obtain ⟨p, ps, hp⟩ := splitNL_cons_of_ne_nil cs
    simp only [List.cons_append, splitNL, List.append_eq]
    by_cases h : c = '\n'
    · rw [if_pos h, if_pos h, ih, hp]
      rfl
    · rw [if_neg h, if_neg h, ih, hp]
      cases ps <;> rfl

theorem splitNL_last_no_newline : ∀ cs : List Char, '\n' ∉ (splitNL cs).getLastD [] := by
  intro cs
  induction cs with
  | nil => simp [splitNL]
  | cons c cs ih =>
    simp only [splitNL]
    obtain ⟨p, ps, hp⟩ := splitNL_cons_of_ne_nil cs
    by_cases h : c = '\n'
    · rw [if_pos h, List.getLastD_cons]
      exact ih
    · rw [if_neg h, hp]
      cases ps with
      | nil =>
        rw [hp] at ih
        simp only [List.headD, List.tail, List.getLastD] at ih ⊢
        intro hmem
        rcases List.mem_cons.mp hmem with hh | hh
        · exact h hh.symm
        · exact ih hh
      | cons q qs =>
        rw [hp] at ih
        simp only [List.headD, List.tail, List.getLastD_cons] at ih ⊢
        exact ih

theorem splitNL_of_no_newline (cs : List Char) (h : '\n' ∉ cs) : splitNL cs = [cs] := by
  induction cs with
  | nil => rfl
  | cons c cs ih =>
    have hc : ¬ c = '\n' := fun hh => h (by simp [hh])
    simp only [splitNL, if_neg hc, ih (fun hm => h (by simp [hm]))]
    rfl

theorem getLastD_append_cons {α : Type} (l1 : List α) (b : α) (l2 : List α) (d : α) :
    (l1 ++ b :: l2).getLastD d = (b :: l2).getLastD d := by
  induction l1 generalizing d with
  | nil => rfl
  | cons a as ih =>
    rw [List.cons_append, List.getLastD_cons, ih a, List.getLastD_cons, List.getLastD_cons]

theorem glue_eq (S1 S2 : List (List Char)) (h : S1 ≠ []) :
    glue S1 S2 = S1.dropLast ++ ((S1.getLastD [] ++ S2.headD []) :: S2.tail) := by
  induction S1 with
  | nil => exact absurd rfl h
  | cons x xs ih =>
    cases xs with
    | nil => rfl
    | cons x2 xs2 =>
      show x :: glue (x2 :: xs2) S2 = _
      rw [ih (by simp), List.dropLast_cons₂]
      simp [List.getLastD_cons]

theorem feedChunk_split (b c1 c2 : List Char) :
    (feedChunk b (c1 ++ c2)).1 = (feedChunk b c1).1 ++ (feedChunk (feedChunk b c1).2 c2).1 ∧
    (feedChunk b (c1 ++ c2)).2 = (feedChunk (feedChunk b c1).2 c2).2 := by
  have h1 : splitNL (b ++ (c1 ++ c2)) = glue (splitNL (b ++ c1)) (splitNL c2) := by
    rw [← List.append_assoc, splitNL_append]
  have hb1 : splitNL ((splitNL (b ++ c1)).getLastD [] ++ c2) =
      ((splitNL (b ++ c1)).getLastD [] ++ (splitNL c2).headD []) :: (splitNL c2).tail := by
    rw [splitNL_append, splitNL_of_no_newline _ (splitNL_last_no_newline _)]
    rfl
  have hglue := glue_eq (splitNL (b ++ c1)) (splitNL c2) (splitNL_ne_nil _)
  constructor
  · show (splitNL (b ++ (c1 ++ c2))).dropLast =
      (splitNL (b ++ c1)).dropLast ++ (splitNL ((splitNL (b ++ c1)).getLastD [] ++ c2)).dropLast
    rw [h1, hglue, hb1, List.dropLast_append_cons]
  · show (splitNL (b ++ (c1 ++ c2))).getLastD [] =
      (splitNL ((splitNL (b ++ c1)).getLastD [] ++ c2)).getLastD []
    rw [h1, hglue, hb1, getLastD_append_cons]

theorem streamLines_split (b c1 c2 : List Char) (rest : List (List Char)) :
    streamLines b (c1 :: c2 :: rest) = streamLines b ((c1 ++ c2) :: rest) := by
  have h := feedChunk_split b c1 c2
  simp only [streamLines]
  rw [h.1, h.2, List.append_assoc]

theorem runChunks_split (st : StreamState) (b c1 c2 : List Char) (rest : List (List Char)) :
    runChunks st b (c1 :: c2 :: rest) = runChunks st b ((c1 ++ c2) :: rest) := by
  have h := feedChunk_split b c1 c2
  simp only [runChunks]
  rw [h.1, h.2, List.foldl_append]

/-- Claim C4: the frame decoder is chunk-boundary invariant — delivering
two chunks separately (in particular, a `data:` line split at any point)
produces the same complete lines, the same decoded event sequence, the
same dispatch state and the same trailing buffer as delivering their
concatenation in one read. -/
theorem frame_decoder_chunk_boundary_invariant (st : StreamState) (b c1 c2 : List Char)
    (rest : List (List Char)) :
    streamLines b (c1 :: c2 :: rest) = streamLines b ((c1 ++ c2) :: rest) ∧
    (streamLines b (c1 :: c2 :: rest)).1.filterMap lineEvent =
      (streamLines b ((c1 ++ c2) :: rest)).1.filterMap lineEvent ∧
    runChunks st b (c1 :: c2 :: rest) = runChunks st b ((c1 ++ c2) :: rest) :=
  ⟨streamLines_split b c1 c2 rest, by rw [streamLines_split b c1 c2 rest],
   runChunks_split st b c1 c2 rest⟩

/-- The per-line dispatch is classify-then-apply: `processLine` equals
applying the event denoted by the line (if any) to the state. -/
theorem processLine_eq_applyEvent (st : StreamState) (line : List Char) :
    processLine st line = (lineEvent line).elim st (applyEvent st) := by
  unfold processLine lineEvent
  by_cases hmark : line.take 6 = dataMarker
  · rw [if_pos hmark, if_pos hmark]
    by_cases htrim : trimChars (line.drop 6) ≠ []
    · rw [if_pos htrim, if_pos htrim]
      cases hp : jsonParse (line.drop 6) with
      | none => rfl
      | some data =>
        unfold payloadEvent dispatchPayload
        by_cases hc : isTypeTag data "content"
        · simp [hc, applyEvent]
        · by_cases he : isTypeTag data "error"
          · simp [hc, he, applyEvent]
          · by_cases hd : isTypeTag data "done"
            · simp [hc, he, hd, applyEvent]
            · simp [hc, he, hd]
    · rw [if_neg htrim, if_neg htrim]; rfl
  · rw [if_neg hmark, if_neg hmark]; rfl

theorem foldl_processLine_eq_applyEvents (lines : List (List Char)) (st : StreamState) :
    lines.foldl processLine st = applyEvents st (lines.filterMap lineEvent) := by
  induction lines generalizing st with
  | nil => rfl
  | cons l ls ih =>
    rw [List.foldl_cons, processLine_eq_applyEvent]
    cases hv : lineEvent l with
    | none =>
      simp only [List.filterMap_cons, hv, Option.elim]
      exact ih st
    | some ev =>
      simp only [List.filterMap_cons, hv, Option.elim]
      exact ih (applyEvent st ev)

theorem runChunks_eq_streamLines (cs : List (List Char)) :
    ∀ (st : StreamState) (b : List Char),
      runChunks st b cs = ((streamLines b cs).1.foldl processLine st, (streamLines b cs).2) := by
  induction cs with
  | nil => intro st b; rfl
  | cons ch rest ih =>
    intro st b
    simp only [runChunks, streamLines]
    rw [ih, List.foldl_append]

theorem applyEvents_append (st : StreamState) (evs1 evs2 : List StreamEvent) :
    applyEvents st (evs1 ++ evs2) = applyEvents (applyEvents st evs1) evs2 := by
  simp [applyEvents, List.foldl_append]

theorem applyEvents_deltas (st : StreamState) (ds : List String) :
    applyEvents st (ds.map StreamEvent.contentDelta) =
      { st with chunkCalls := st.chunkCalls ++ ds } := by
  induction ds generalizing st with
  | nil => simp [applyEvents]
  | cons d ds ih =>
    show applyEvents (applyEvent st (.contentDelta d)) (ds.map .contentDelta) = _
    rw [ih]
    simp [applyEvent]

theorem applyEvent_done_chunkCalls (st : StreamState) (v : Option Json) :
    (applyEvent st (.done v)).chunkCalls = st.chunkCalls := by
  cases v <;> rfl

/-- Claim C5: after any sequence of content deltas D1..Dn followed by
`Done`, the `onChunk` call sequence is exactly D1..Dn in order, and the
live buffer immediately before reconciliation (the `streamingMessage`
surfaced after the streaming stage, before the history fetch) is their
ordered concatenation. -/
theorem live_buffer_equals_delta_concat
    (chunks : List (List Char)) (ds : List String) (v : Option Json)
    (pre : ChatState) (question fileId tempId tempTs nowTs : String)
    (h : (streamLines [] chunks).1.filterMap lineEvent =
      ds.map StreamEvent.contentDelta ++ [StreamEvent.done v]) :
    (runStream chunks).chunkCalls = ds ∧
    (afterStreamingStage (submitStage pre question fileId tempId tempTs nowTs)
        (runStream chunks)).streamingMessage = String.join ds := by
  have hrun : runStream chunks =
      applyEvents initStreamState (ds.map .contentDelta ++ [.done v]) := by
    rw [runStream, runChunks_eq_streamLines, foldl_processLine_eq_applyEvents, h]
  have hcalls : (runStream chunks).chunkCalls = ds := by
    rw [hrun, applyEvents_append, applyEvents_deltas]
    show (applyEvent _ (.done v)).chunkCalls = ds
    rw [applyEvent_done_chunkCalls]
    simp [initStreamState]
  exact ⟨hcalls, by simp [afterStreamingStage, hcalls]⟩

theorem live_buffer_equals_delta_concat_witness :
    ((streamLines [] exampleChunks).1.filterMap lineEvent =
      (["The ", "topic ", "is X."].map StreamEvent.contentDelta) ++
        [StreamEvent.done (some (.num 42))]) ∧
    (runStream exampleChunks).chunkCalls = ["The ", "topic ", "is X."] ∧
    (afterStreamingStage (submitStage (ChatState.mk false none none "" none)
        "What is the topic?" "f1" "tmp" "t1" "t2") (runStream exampleChunks)).streamingMessage =
      String.join ["The ", "topic ", "is X."] :=
  ⟨by with_unfolding_all rfl,
   (live_buffer_equals_delta_concat exampleChunks ["The ", "topic ", "is X."]
      (some (.num 42)) (ChatState.mk false none none "" none)
      "What is the topic?" "f1" "tmp" "t1" "t2" (by with_unfolding_all rfl)).1,
   (live_buffer_equals_delta_concat exampleChunks ["The ", "topic ", "is X."]
      (some (.num 42)) (ChatState.mk false none none "" none)
      "What is the topic?" "f1" "tmp" "t1" "t2" (by with_unfolding_all rfl)).2⟩

/-- Claim C10: a `done` frame does not terminate stream consumption —
subsequent lines are folded over exactly as before, a later content frame
still appends its delta to the call sequence, a later `done` frame with a
`suggested_timestamp` overwrites the captured value, and one without
leaves the captured value intact. -/
theorem done_frame_does_not_terminate_stream (st : StreamState)
    (doneLine contentLine : List Char) (v : Option Json) (d : String)
    (rest : List (List Char))
    (hdone : lineEvent doneLine = some (.done v))
    (hcontent : lineEvent contentLine = some (.contentDelta d)) :
    ((doneLine :: rest).foldl processLine st = rest.foldl processLine (processLine st doneLine)) ∧
    (processLine (processLine st doneLine) contentLine).chunkCalls =
      (processLine st doneLine).chunkCalls ++ [d] ∧
    (∀ j, v = some j → (processLine st doneLine).suggestedTimestamp = some j) ∧
    (v = none → (processLine st doneLine).suggestedTimestamp = st.suggestedTimestamp) := by
  have h1 : processLine st doneLine = applyEvent st (.done v) := by
    rw [processLine_eq_applyEvent, hdone]; rfl
  have h2 : ∀ s, processLine s contentLine = applyEvent s (.contentDelta d) := fun s => by
    rw [processLine_eq_applyEvent, hcontent]; rfl
  refine ⟨rfl, ?_, ?_, ?_⟩
  · rw [h2]; rfl
  · intro j hj; subst hj; rw [h1]; rfl
  · intro hv; subst hv; rw [h1]; rfl

theorem done_frame_does_not_terminate_stream_witness :
    (lineEvent ("data: \x7b\"type\":\"done\",\"suggested_timestamp\":42\x7d").toList =
      some (.done (some (.num 42)))) ∧
    (lineEvent ("data: \x7b\"type\":\"done\"\x7d").toList = some (.done none)) ∧
    (processLine (StreamState.mk ["A"] [] (some (.num 7)))
        ("data: \x7b\"type\":\"done\",\"suggested_timestamp\":42\x7d").toList).suggestedTimestamp =
      some (.num 42) ∧
    (processLine (processLine (StreamState.mk ["A"] [] (some (.num 7)))
        ("data: \x7b\"type\":\"done\",\"suggested_timestamp\":42\x7d").toList)
        ("data: \x7b\"type\":\"content\",\"content\":\"B\"\x7d").toList).chunkCalls =
      (processLine (StreamState.mk ["A"] [] (some (.num 7)))
        ("data: \x7b\"type\":\"done\",\"suggested_timestamp\":42\x7d").toList).chunkCalls ++ ["B"] ∧
    (processLine (StreamState.mk [] [] (some (.num 42)))
        ("data: \x7b\"type\":\"done\"\x7d").toList).suggestedTimestamp = some (.num 42) :=
  ⟨by with_unfolding_all rfl, rfl,
   (done_frame_does_not_terminate_stream (StreamState.mk ["A"] [] (some (.num 7)))
      ("data: \x7b\"type\":\"done\",\"suggested_timestamp\":42\x7d").toList
      ("data: \x7b\"type\":\"content\",\"content\":\"B\"\x7d").toList (some (.num 42)) "B" []
      (by with_unfolding_all rfl) rfl).2.2.1 (.num 42) rfl,
   (done_frame_does_not_terminate_stream (StreamState.mk ["A"] [] (some (.num 7)))
      ("data: \x7b\"type\":\"done\",\"suggested_timestamp\":42\x7d").toList
      ("data: \x7b\"type\":\"content\",\"content\":\"B\"\x7d").toList (some (.num 42)) "B" []
      (by with_unfolding_all rfl) rfl).2.1,
   (done_frame_does_not_terminate_stream (StreamState.mk [] [] (some (.num 42)))
      ("data: \x7b\"type\":\"done\"\x7d").toList
      ("data: \x7b\"type\":\"content\",\"content\":\"B\"\x7d").toList none "B" [] rfl rfl).2.2.2 rfl⟩

/-- Claim C8: a line with the data marker whose payload fails to parse as
JSON, or whose parsed payload carries an unrecognized `type` discriminator,
is skipped with no effect, and every subsequent line is decoded exactly as
it would have been without it. -/
theorem malformed_frame_skipped (line : List Char) (st : StreamState)
    (rest : List (List Char)) :
    (line.take 6 = dataMarker → jsonParse (line.drop 6) = none →
      processLine st line = st ∧
      (line :: rest).foldl processLine st = rest.foldl processLine st) ∧
    (∀ data, line.take 6 = dataMarker → jsonParse (line.drop 6) = some data →
      isTypeTag data "content" = false → isTypeTag data "error" = false →
      isTypeTag data "done" = false →
      processLine st line = st ∧
      (line :: rest).foldl processLine st = rest.foldl processLine st) := by
  constructor
  · intro hmark hparse
    have hskip : processLine st line = st := by
      unfold processLine
      rw [if_pos hmark]
      by_cases htrim : trimChars (line.drop 6) ≠ []
      · rw [if_pos htrim, hparse]
      · rw [if_neg htrim]
    exact ⟨hskip, by rw [List.foldl_cons, hskip]⟩
  · intro data hmark hparse hc he hd
    have hskip : processLine st line = st := by
      unfold processLine
      rw [if_pos hmark]
      by_cases htrim : trimChars (line.drop 6) ≠ []
      · rw [if_pos htrim, hparse]
        simp [dispatchPayload, hc, he, hd]
      · rw [if_neg htrim]
    exact ⟨hskip, by rw [List.foldl_cons, hskip]⟩

/-- Claim C2: after a successful authoritative fetch following `Done`, the
local sequence is the server's canonical sequence (identical up to the
attached hint), the live buffer is cleared, and when a suggestion T was
captured and the canonical sequence ends in an assistant message, that
message carries `suggested_timestamp = T`. -/
theorem reconciliation_replaces_history_and_attaches_timestamp
    (pre : ChatState) (question fileId tempId tempTs nowTs : String)
    (chunks : List (List Char)) (T : Json)
    (history : ChatHistoryResponse) (lastMsg : Message)
    (hcap : (runStream chunks).suggestedTimestamp = some T)
    (hlast : history.messages.getLast? = some lastMsg)
    (hrole : lastMsg.role = .assistant) :
    let final := askQuestion pre question fileId tempId tempTs nowTs (.stream chunks)
      (.ok history)
    final.streamingMessage = "" ∧
    final.isLoading = false ∧
    final.error = none ∧
    final.chatHistory = some (attachSuggested history (some T)) ∧
    (attachSuggested history (some T)).messages.map eraseSuggested =
      history.messages.map eraseSuggested ∧
    (attachSuggested history (some T)).messages.getLast? =
      some { lastMsg with suggested_timestamp := some T } := by
  have hfs : finalSuggested (runStream chunks) = some T := by
    unfold finalSuggested
    rw [hcap]
  have hattach : attachSuggested history (some T) =
      { history with messages := history.messages.dropLast ++
          [{ lastMsg with suggested_timestamp := some T }] } := by
    unfold attachSuggested
    rw [hlast]
    simp [hrole]
  have hsplit : history.messages.dropLast ++ [lastMsg] = history.messages :=
    List.dropLast_append_getLast? lastMsg hlast
  have hfinal : askQuestion pre question fileId tempId tempTs nowTs (.stream chunks)
      (.ok history) =
      reconcileStage (afterStreamingStage
          (submitStage pre question fileId tempId tempTs nowTs) (runStream chunks))
        (some T) (.ok history) := by
    show reconcileStage (afterStreamingStage
        (submitStage pre question fileId tempId tempTs nowTs) (runStream chunks))
      (finalSuggested (runStream chunks)) (.ok history) = _
    rw [hfs]
  refine ⟨?_, ?_, ?_, ?_, ?_, ?_⟩
  · rw [hfinal]; rfl
  · rw [hfinal]; rfl
  · rw [hfinal]; rfl
  · rw [hfinal]; rfl
  · rw [hattach]
    conv_rhs => rw [← hsplit]
    simp [eraseSuggested]
  · rw [hattach]
    simp [List.getLast?_concat]

theorem reconciliation_replaces_history_and_attaches_timestamp_witness :
    ((runStream exampleChunks).suggestedTimestamp = some (.num 42) ∧
      wHistory.messages.getLast? = some wAsst ∧ wAsst.role = .assistant) ∧
    (askQuestion (ChatState.mk false none none "" none) "What is the topic?" "f1" "tmp"
        "t1" "t2" (.stream exampleChunks) (.ok wHistory)).chatHistory =
      some (attachSuggested wHistory (some (.num 42))) ∧
    (attachSuggested wHistory (some (.num 42))).messages.getLast? =
      some { wAsst with suggested_timestamp := some (.num 42) } :=
  ⟨⟨by with_unfolding_all rfl, rfl, rfl⟩,
   (reconciliation_replaces_history_and_attaches_timestamp
      (ChatState.mk false none none "" none) "What is the topic?" "f1" "tmp" "t1" "t2"
      exampleChunks (.num 42) wHistory wAsst (by with_unfolding_all rfl) rfl rfl).2.2.2.1,
   (reconciliation_replaces_history_and_attaches_timestamp
      (ChatState.mk false none none "" none) "What is the topic?" "f1" "tmp" "t1" "t2"
      exampleChunks (.num 42) wHistory wAsst (by with_unfolding_all rfl) rfl rfl).2.2.2.2.2⟩

/-- Claim C7 (counterexample): when the history fetch after `Done` fails,
the code does surface a user-visible error and clears the live buffer even
though the streamed answer had been displayed — refuting "only logged, not
fatal, optimistic content remains visible" at this input. -/
theorem reconciliation_failure_not_silent_counterexample :
    (afterStreamingStage (submitStage (ChatState.mk false none none "" none) "q" "f1"
        "tmp" "t1" "t2") (runStream partialChunks)).streamingMessage = "Partial answer" ∧
    (askQuestion (ChatState.mk false none none "" none) "q" "f1" "tmp" "t1" "t2"
        (.stream partialChunks) (.error "Network error")).error = some "Network error" ∧
    (askQuestion (ChatState.mk false none none "" none) "q" "f1" "tmp" "t1" "t2"
        (.stream partialChunks) (.error "Network error")).streamingMessage = "" :=
  ⟨by with_unfolding_all rfl, rfl, rfl⟩

/-- Claim C7 (amended): a failed authoritative fetch after `Done` is
handled by the turn's generic catch — the fetch error message is surfaced
as the turn error, the live buffer is cleared (retracting the streamed
answer from display), and the local transcript keeps the optimistic state
from submission. -/
theorem reconciliation_failure_surfaces_error (pre : ChatState)
    (question fileId tempId tempTs nowTs : String) (chunks : List (List Char)) (e : String) :
    let final := askQuestion pre question fileId tempId tempTs nowTs (.stream chunks)
      (.error e)
    final.error = some e ∧
    final.streamingMessage = "" ∧
    final.isLoading = false ∧
    final.chatHistory = (submitStage pre question fileId tempId tempTs nowTs).chatHistory :=
  ⟨rfl, rfl, rfl, rfl⟩

/-- Claim C1 (code evaluated at the failing input): the `throw` for an
`error` frame is raised by the dispatch (`dispatchPayload` returns
`.error "rate limited"`) but is caught by the same `catch (parseError)`
that guards `JSON.parse`, so the frame leaves the state unchanged, later
frames are still applied, and the turn completes with no surfaced error. -/
theorem error_frame_swallowed_at_failing_input :
    jsonParse ("\x7b\"type\":\"error\",\"error\":\"rate limited\"\x7d").toList =
      some errorFramePayload ∧
    dispatchPayload initStreamState errorFramePayload = .error "rate limited" ∧
    processLine initStreamState
      ("data: \x7b\"type\":\"error\",\"error\":\"rate limited\"\x7d").toList = initStreamState ∧
    (runStream errorFrameChunks).chunkCalls = ["Partial", "More"] ∧
    (askQuestion (ChatState.mk false none none "" none) "q" "f1" "tmp" "t1" "t2"
        (.stream errorFrameChunks) (.ok wHistory)).error = none ∧
    (askQuestion (ChatState.mk false none none "" none) "q" "f1" "tmp" "t1" "t2"
        (.stream errorFrameChunks) (.ok wHistory)).chatHistory = some wHistory :=
  ⟨rfl, rfl, rfl, rfl, rfl, rfl⟩

theorem malformed_frame_skipped_witness :
    ("data: \x7boops".toList.take 6 = dataMarker ∧
      jsonParse ("data: \x7boops".toList.drop 6) = none ∧
      processLine initStreamState "data: \x7boops".toList = initStreamState) ∧
    ("data: \x7b\"type\":\"other\"\x7d".toList.take 6 = dataMarker ∧
      jsonParse ("data: \x7b\"type\":\"other\"\x7d".toList.drop 6) =
        some (Json.obj [("type", Json.str "other")]) ∧
      processLine initStreamState "data: \x7b\"type\":\"other\"\x7d".toList = initStreamState) :=
  ⟨⟨rfl, rfl,
    ((malformed_frame_skipped "data: \x7boops".toList initStreamState []).1 rfl rfl).1⟩,
   ⟨rfl, rfl,
    ((malformed_frame_skipped "data: \x7b\"type\":\"other\"\x7d".toList initStreamState []).2
      (Json.obj [("type", Json.str "other")]) rfl rfl rfl rfl rfl).1⟩⟩

/-- Claim C3: invoking `submit(question)` while a question is already in
flight (`isLoading`, the code's rendering of "state ≠ Idle") is a no-op:
the input box keeps its content, no network request is issued, and the
conversation state is unchanged. -/
theorem submit_while_inflight_is_noop (questionBox : String) (st : ChatState)
    (fileId tempId tempTs nowTs : String) (transport : TransportResult)
    (historyResult : Except String ChatHistoryResponse)
    (h : st.isLoading = true) :
    handleSubmit questionBox st fileId tempId tempTs nowTs transport historyResult =
      { questionBox := questionBox, conv := st, requestIssued := false } := by
  unfold handleSubmit
  rw [if_pos (Or.inr (by simp [h]))]

theorem submit_while_inflight_is_noop_witness :
    (ChatState.mk true none none "" none).isLoading = true ∧
    handleSubmit "hi" (ChatState.mk true none none "" none) "f" "tmp" "t1" "t2"
        (.stream []) (.error "x") =
      { questionBox := "hi", conv := ChatState.mk true none none "" none,
        requestIssued := false } :=
  ⟨rfl, submit_while_inflight_is_noop "hi" _ "f" "tmp" "t1" "t2" (.stream []) (.error "x") rfl⟩

/-- Claim C9: `seek(time)` with no bound playback element (including after
deregistration) is a safe no-op, and with a bound element it sets the
element's position to `time` and resumes playback. -/
theorem seek_contract (ctx : MediaPlayerCtx) (seconds : ℚ) :
    (ctx.mediaRef = none → seekToTime ctx seconds = ctx) ∧
    seekToTime (registerMediaElement ctx none) seconds = registerMediaElement ctx none ∧
    (∀ el, ctx.mediaRef = some el →
      (seekToTime ctx seconds).mediaRef = some { el with currentTime := seconds, paused := false } ∧
      (seekToTime ctx seconds).isPlaying = true) := by
  refine ⟨fun h => ?_, ?_, fun el h => ?_⟩
  · simp [seekToTime, h]
  · simp [seekToTime, registerMediaElement]
  · simp [seekToTime, h]

theorem seek_contract_witness :
    seekToTime initMediaPlayerCtx 7 = initMediaPlayerCtx ∧
    (seekToTime (MediaPlayerCtx.mk (some (MediaElement.mk 3 true)) 3 10 false) 7).mediaRef =
      some (MediaElement.mk 7 false) ∧
    (seekToTime (MediaPlayerCtx.mk (some (MediaElement.mk 3 true)) 3 10 false) 7).isPlaying = true :=
  ⟨(seek_contract initMediaPlayerCtx 7).1 rfl,
   ((seek_contract (MediaPlayerCtx.mk (some (MediaElement.mk 3 true)) 3 10 false) 7).2.2
      (MediaElement.mk 3 true) rfl).1,
   ((seek_contract (MediaPlayerCtx.mk (some (MediaElement.mk 3 true)) 3 10 false) 7).2.2
      (MediaElement.mk 3 true) rfl).2⟩

end DocuMind
